import Mathlib

/-!
Verification of the games_scraper repository against its specification.

The development shallowly embeds the Python sources:
  * `activeplayer_scraper.py` — numeric normalizer, column resolution over
    table headers, per-layout overrides, row extraction, the pagination
    loop, the retry/backoff fetcher, and the per-source orchestrator;
  * `steamdb_scraper.py` — its own numeric normalizer, header keyword scan
    with positional defaults, and row extraction.

Python floats are modelled as rationals (all values reached by the claims
are exactly representable); Python strings as Lean strings / `List Char`.
Pages delivered by the network are modelled as a list of fetch outcomes,
one per successive page number; BeautifulSoup / Selenium queries are
modelled by records that carry the query results (located table, header
cell texts, row cell texts, pagination links), since the HTML library is
external to the repository.
-/

namespace GamesScraper

/-! ## Python string primitives -/

/-- Model of Python `str.strip()`: drop whitespace from both ends. -/
def pyStrip (cs : List Char) : List Char :=
  ((cs.dropWhile Char.isWhitespace).reverse.dropWhile Char.isWhitespace).reverse

/-- Model of Python `str.lower()` over the character list. -/
def pyLower (cs : List Char) : List Char := cs.map Char.toLower

/-- Model of Python substring containment `needle in hay`. -/
def hasSub (needle : List Char) : List Char → Bool
  | [] => needle.isPrefixOf []
  | c :: t => needle.isPrefixOf (c :: t) || hasSub needle t

/-- `substrS hay needle` models Python `needle in hay` on strings. -/
def substrS (hay needle : String) : Bool := hasSub needle.toList hay.toList

/-- Python `s.strip()` as a `String` operation. -/
def stripS (s : String) : String := String.mk (pyStrip s.toList)

/-- Python `s.strip().lower()` as a `String` operation. -/
def lowerStripS (s : String) : String := String.mk (pyLower (pyStrip s.toList))

/-! ## Model of Python `float(...)`

Model of CPython `float(s)` restricted to the decimal forms the scrapers
ever feed it: an optional sign followed by `digits`, `digits.digits`,
`digits.` or `.digits`.  Exponent and inf/nan forms are not produced by
the cleaned inputs of either scraper and are omitted; on every other
string the model returns `none`, matching the `ValueError` branch. -/

/-- Numeric value of a digit list (most significant first). -/
def digitsToNat (cs : List Char) : Nat :=
  cs.foldl (fun a c => 10 * a + (c.toNat - 48)) 0

/-- Unsigned decimal parse: `digits`, `digits.digits`, `digits.`, `.digits`.
Returns the value as a mantissa/denominator pair, so
`intpart.frac = (intpart * 10 ^ len(frac) + frac) / 10 ^ len(frac)`. -/
def pyFloatCore? (cs : List Char) : Option (ℕ × ℕ) :=
  let intPart := cs.takeWhile Char.isDigit
  let rest := cs.dropWhile Char.isDigit
  match rest with
  | [] => if intPart.isEmpty then none else some (digitsToNat intPart, 1)
  | '.' :: frac =>
      if frac.all Char.isDigit && (!intPart.isEmpty || !frac.isEmpty) then
        some (digitsToNat intPart * 10 ^ frac.length + digitsToNat frac, 10 ^ frac.length)
      else none
  | _ => none

/-- The value `float(cs) * mult` for a natural multiplier `mult`, assembled
as a single `mkRat` (an exact rendering of the product, kept in this form
so the definition evaluates by kernel reduction). -/
def pyFloatScaled? (cs : List Char) (mult : ℕ) : Option ℚ :=
  match cs with
  | '+' :: rest => (pyFloatCore? rest).map (fun p => mkRat (p.1 * mult) p.2)
  | '-' :: rest => (pyFloatCore? rest).map (fun p => mkRat (-(p.1 * mult : ℤ)) p.2)
  | _ => (pyFloatCore? cs).map (fun p => mkRat (p.1 * mult) p.2)

/-- Signed decimal parse, the model of `float(cleaned)`. -/
def pyFloat? (cs : List Char) : Option ℚ := pyFloatScaled? cs 1

/-! ## The two numeric normalizers

`activeplayer_scraper.py` lines 12-29 and `steamdb_scraper.py` lines
86-102 each define a function named `parse_number_with_commas`; they are
embedded separately, suffixed `_ap` and `_steam`. -/

/-- `parse_number_with_commas` from `activeplayer_scraper.py`:
strip commas and percent signs, trim, lower-case, apply a trailing
`k`/`m`/`b` magnitude suffix, then `float(...)`; parse failure gives 0. -/
def parse_number_with_commas_ap (text : String) : ℚ :=
  if pyStrip text.toList = [] then 0
  else
    let cleaned := pyLower (pyStrip ((text.toList.filter (fun c => c ≠ ',')).filter
      (fun c => c ≠ '%')))
    let suffixed :=
      if cleaned.getLast? = some 'k' then ((1000 : ℕ), cleaned.dropLast)
      else if cleaned.getLast? = some 'm' then ((1000000 : ℕ), cleaned.dropLast)
      else if cleaned.getLast? = some 'b' then ((1000000000 : ℕ), cleaned.dropLast)
      else ((1 : ℕ), cleaned)
    match pyFloatScaled? suffixed.2 suffixed.1 with
    | some v => v
    | none => 0

/-- `parse_number_with_commas` from `steamdb_scraper.py`:
strip commas and percent signs, trim; a leading `+`/`-` marks a delta and
gives 0; otherwise `float(...)`; parse failure gives 0. -/
def parse_number_with_commas_steam (text : String) : ℚ :=
  if pyStrip text.toList = [] then 0
  else
    let cleaned := pyStrip ((text.toList.filter (fun c => c ≠ ',')).filter
      (fun c => c ≠ '%'))
    match cleaned with
    | '+' :: _ => 0
    | '-' :: _ => 0
    | _ =>
      match pyFloat? cleaned with
      | some v => v
      | none => 0

/-! ## Records and row extraction -/

/-- One output record `[month, game_name, average, peak]`. -/
structure Record where
  month : String
  game : String
  avg : ℚ
  peak : ℚ
deriving DecidableEq, Repr

/-- Row loop of `scrape_activeplayer` (`activeplayer_scraper.py` 261-271):
for each `tr`, take its `td` texts; if the row has more cells than
`max(avg_idx, peak_idx)`, normalize the two mapped cells and append the
record only when both values are strictly positive. -/
def extractRowsAP (game : String) (a b : ℕ) : List (List String) → List Record
  | [] => []
  | cols :: rest =>
    if max a b < cols.length then
      let avg := parse_number_with_commas_ap (stripS (cols.getD a ""))
      let pk := parse_number_with_commas_ap (stripS (cols.getD b ""))
      if 0 < avg ∧ 0 < pk then
        ⟨stripS (cols.getD 0 ""), game, avg, pk⟩ :: extractRowsAP game a b rest
      else extractRowsAP game a b rest
    else extractRowsAP game a b rest

/-- Cell access of the Steam row loop: a `None` column index yields the
literal text `"0"`; an out-of-range index raises `IndexError`, which the
per-row `except` swallows (modelled as `none`, the row is skipped). -/
def steamCell (cols : List String) : Option ℕ → Option String
  | none => some "0"
  | some i => if i < cols.length then some (stripS (cols.getD i "")) else none

/-- Row loop of `scrape_steamcharts` (`steamdb_scraper.py` 189-211):
rows with at least 3 cells are normalized and the record is appended when
at least one of the two values is strictly positive. -/
def extractRowsSteam (game : String) (a? b? : Option ℕ) : List (List String) → List Record
  | [] => []
  | cols :: rest =>
    if 3 ≤ cols.length then
      match steamCell cols a?, steamCell cols b? with
      | some avgTxt, some peakTxt =>
        let avg := parse_number_with_commas_steam avgTxt
        let pk := parse_number_with_commas_steam peakTxt
        if 0 < avg ∨ 0 < pk then
          ⟨stripS (cols.getD 0 ""), game, avg, pk⟩ :: extractRowsSteam game a? b? rest
        else extractRowsSteam game a? b? rest
      | _, _ => extractRowsSteam game a? b? rest
    else extractRowsSteam game a? b? rest

/-! ## ActivePlayer column resolution (`activeplayer_scraper.py` 167-193) -/

/-- Keywords that mark a peak column (checked first). -/
def peakKeywords : List String := ["peak", "max player", "max concurrent"]

/-- Keywords of the first average branch. -/
def avgDailyKeywords : List String :=
  ["average daily", "daily avg", "daily average", "daily average users"]

/-- Python `any(keyword in header_text for keyword in ...)`. -/
def containsAny (h : String) (ks : List String) : Bool := ks.any (fun k => substrS h k)

/-- One iteration of the header loop: the state is
`(avg_idx, peak_idx)`; the peak keywords are checked first, the average
branches follow as `elif`s. -/
def resolveStep (st : Option ℕ × Option ℕ) (i : ℕ) (h : String) : Option ℕ × Option ℕ :=
  if containsAny h peakKeywords then (st.1, some i)
  else if containsAny h avgDailyKeywords then (some i, st.2)
  else if substrS h "estimated players" then (some i, st.2)
  else if substrS h "monthly average users" then (some i, st.2)
  else if substrS h "players" && st.2.isNone then (some i, st.2)
  else if substrS h "average daily players" then (some i, st.2)
  else if substrS h "daily average" then (some i, st.2)
  else st

/-- The header loop over `enumerate(header_cells)`. -/
def resolveLoop (st : Option ℕ × Option ℕ) (i : ℕ) : List String → Option ℕ × Option ℕ
  | [] => st
  | h :: rest => resolveLoop (resolveStep st i h) (i + 1) rest

/-- Column resolution over the raw `th` texts; the code lower-cases the
stripped cell text before matching
(`[th.get_text(strip=True).lower() for th in header.find_all("th")]`). -/
def resolveHeader (ths : List String) : Option ℕ × Option ℕ :=
  resolveLoop (none, none) 0 (ths.map lowerStripS)

/-! ## Layout-specific overrides (`activeplayer_scraper.py` 195-252) -/

/-- Identity of the located table: its `id` attribute and class list. -/
structure TableInfo where
  id? : Option String
  classes : List String
deriving DecidableEq, Repr

/-- The single-metric aliasing `peak_idx = avg_idx` (applied only when an
average column was found). -/
def aliasPeak (st : Option ℕ × Option ℕ) : Option ℕ × Option ℕ :=
  match st.1 with
  | some i => (some i, some i)
  | none => st

/-- The special-handling `if/elif` chain after the header loop.  The
returned `Bool` is `false` when the chain `break`s out of the page loop
(the `table-striped` branch lacking one of its two columns). -/
def applyOverrides (t : TableInfo) (st : Option ℕ × Option ℕ) :
    (Option ℕ × Option ℕ) × Bool :=
  if "asdrm-monthly-stats-table" ∈ t.classes then (aliasPeak st, true)
  else if t.id? = some "table_3" then (aliasPeak st, true)
  else if "wgs-stats-table" ∈ t.classes then (aliasPeak st, true)
  else if "gst-data-table" ∈ t.classes then (aliasPeak st, true)
  else if "table-striped" ∈ t.classes then (st, st.1.isSome && st.2.isSome)
  else (st, true)

/-- The final `avg_idx is None` / `peak_idx is None` checks: resolution
succeeds only when the chain did not break and both indices are set. -/
def finishResolve (r : (Option ℕ × Option ℕ) × Bool) : Option (ℕ × ℕ) :=
  if r.2 then
    match r.1 with
    | (some a, some p) => some (a, p)
    | _ => none
  else none

/-- Full column resolution for a located table. -/
def resolveFor (t : TableInfo) (ths : List String) : Option (ℕ × ℕ) :=
  finishResolve (applyOverrides t (resolveHeader ths))

/-- A layout signature the code treats as single-metric (the four alias
branches of the special-handling chain). -/
def singleMetricSig (t : TableInfo) : Prop :=
  "asdrm-monthly-stats-table" ∈ t.classes ∨ t.id? = some "table_3" ∨
    "wgs-stats-table" ∈ t.classes ∨ "gst-data-table" ∈ t.classes

example : resolveHeader ["Month", "Avg Players", "Peak Players"] = (some 1, some 2) := by
  decide
example : resolveFor ⟨none, ["asdrm-monthly-stats-table"]⟩ ["Month", "Estimated Players"]
    = some (1, 1) := by decide
example : resolveFor ⟨some "table_2", []⟩ ["Month", "Average Daily Players", "Peak Players"]
    = some (1, 2) := by decide

/-! ## Pagination driver (`activeplayer_scraper.py` 81-310)

A fetched page carries the results of the document queries the loop body
performs: the located table (identity, `thead` cell texts if a `thead`
exists, and the `td` texts of every `tr`), and the link list of the
`ms-pagination` control if one exists.  The network is a list of fetch
outcomes, one per successive page number; a fetch past the end of the
list, like a raised fetch, lands in the `except` handler. -/

/-- An `<a href=...>` element of the pagination control. -/
structure Link where
  text : String
  href : String
deriving DecidableEq, Repr

/-- One fetched-and-parsed page. -/
structure Page where
  table? : Option (TableInfo × Option (List String) × List (List String))
  pagination? : Option (List Link)

/-- Outcome of fetching one page: `err` models an exception out of
`make_request_with_retry` (or any other exception in the loop body). -/
inductive Fetched where
  | err : Fetched
  | ok : Page → Fetched

/-- Next-page detection (`activeplayer_scraper.py` 278-283): some link has
`"Next"` in its text or `ms_page={page_num + 1}` in its href. -/
def hasNext (links : List Link) (pageNum : ℕ) : Bool :=
  links.any (fun l =>
    substrS l.text "Next" || substrS l.href ("ms_page=" ++ toString (pageNum + 1)))

/-- The `while True` pagination loop.  Returns the accumulated records and
the number of pages consumed from the supply.  Every `break` of the source
maps to returning the accumulator: fetch error, no matching table, no
`thead`, unresolved columns, no pagination control, and no next-page
affordance. -/
def scrapeLoop (game : String) : List Fetched → ℕ → List Record → List Record × ℕ
  | [], _, acc => (acc, 0)
  | Fetched.err :: _, _, acc => (acc, 1)
  | Fetched.ok pg :: rest, pageNum, acc =>
    match pg.table? with
    | none => (acc, 1)
    | some (tinfo, hdr?, rows) =>
      match hdr? with
      | none => (acc, 1)
      | some ths =>
        match resolveFor tinfo ths with
        | none => (acc, 1)
        | some (a, b) =>
          let acc2 := acc ++ extractRowsAP game a b rows
          match pg.pagination? with
          | none => (acc2, 1)
          | some links =>
            if hasNext links pageNum then
              let r := scrapeLoop game rest (pageNum + 1) acc2
              (r.1, r.2 + 1)
            else (acc2, 1)

/-- `scrape_activeplayer(game_slug, game_name)`: run the pagination loop
from page 1 with an empty accumulator and return the collected data. -/
def scrape_activeplayer (game : String) (fetches : List Fetched) : List Record :=
  (scrapeLoop game fetches 1 []).1

/-- `scrape_activeplayer_games` (`activeplayer_scraper.py` 312-322): every
target is attempted in order; a target's data extends the total only when
non-empty.  `env` maps a target's slug to its page supply. -/
def scrape_activeplayer_games (targets : List (String × String))
    (env : String → List Fetched) : List Record :=
  targets.foldl (fun all t =>
    let gd := scrape_activeplayer t.1 (env t.2)
    if gd.isEmpty then all else all ++ gd) []

/-! ## Retry fetcher (`activeplayer_scraper.py` 58-79) -/

/-- Outcome of `make_request_with_retry`: a response, a raised exception
(the final attempt's re-raise), or fall-through to `return None` (only
reachable with `max_retries = 0`). -/
inductive ReqOutcome (E R : Type) where
  | success : R → ReqOutcome E R
  | raised : E → ReqOutcome E R
  | exhausted : ReqOutcome E R
deriving DecidableEq, Repr

/-- The `for attempt in range(max_retries)` loop: `attempt` is the current
attempt number, `remaining` the iterations left.  Returns the outcome, the
list of backoff delays slept (each `base_delay * 2^attempt + jitter`), and
the number of attempts made. -/
def retryAux (fetch : ℕ → Except E R) (baseDelay : ℚ) (jitter : ℕ → ℚ)
    (maxRetries : ℕ) : ℕ → ℕ → ReqOutcome E R × List ℚ × ℕ
  | _, 0 => (ReqOutcome.exhausted, [], 0)
  | attempt, remaining + 1 =>
    match fetch attempt with
    | Except.ok r => (ReqOutcome.success r, [], 1)
    | Except.error e =>
      if attempt < maxRetries - 1 then
        let d := baseDelay * 2 ^ attempt + jitter attempt
        let r := retryAux fetch baseDelay jitter maxRetries (attempt + 1) remaining
        (r.1, d :: r.2.1, r.2.2 + 1)
      else (ReqOutcome.raised e, [], 1)

/-- `make_request_with_retry(session, url, max_retries=3, base_delay=2.0)`.
The session/url pair is abstracted into the per-attempt outcome function
`fetch`; the `random.uniform(0, 1)` draws into `jitter`. -/
def make_request_with_retry (fetch : ℕ → Except E R) (maxRetries : ℕ)
    (baseDelay : ℚ) (jitter : ℕ → ℚ) : ReqOutcome E R × List ℚ × ℕ :=
  retryAux fetch baseDelay jitter maxRetries 0 maxRetries

/-! ## Steam Charts column resolution (`steamdb_scraper.py` 169-184) -/

/-- One iteration of the Steam header scan: `avg`+`player` sets the
average index, else `peak`+`player` sets the peak index; the cell text is
stripped and lower-cased first. -/
def steamKeyStep (st : Option ℕ × Option ℕ) (i : ℕ) (h : String) : Option ℕ × Option ℕ :=
  let ht := lowerStripS h
  if substrS ht "avg" && substrS ht "player" then (some i, st.2)
  else if substrS ht "peak" && substrS ht "player" then (st.1, some i)
  else st

/-- The Steam header keyword loop over `enumerate(header_cells)`. -/
def steamKeyLoop (st : Option ℕ × Option ℕ) (i : ℕ) : List String → Option ℕ × Option ℕ
  | [] => st
  | h :: rest => steamKeyLoop (steamKeyStep st i h) (i + 1) rest

/-- Steam column resolution: keyword scan and positional defaults run
only under `if len(header_cells) >= 3`; inside, an unresolved average
index defaults to column 1 (if at least 2 cells) and an unresolved peak
index to column 2 (if at least 3 cells). -/
def steamResolve (cells : List String) : Option ℕ × Option ℕ :=
  if 3 ≤ cells.length then
    let st := steamKeyLoop (none, none) 0 cells
    let a := if st.1 = none ∧ 2 ≤ cells.length then some 1 else st.1
    let b := if st.2 = none ∧ 3 ≤ cells.length then some 2 else st.2
    (a, b)
  else (none, none)

/-- Pipeline of `scrape_steamcharts` after the header row is read
(`steamdb_scraper.py` 169-211): resolve the column indices from the
header cells, then run the row loop over the data rows (`rows[1:]`) with
the resolved indices. -/
def steamExtract (game : String) (headerCells : List String)
    (dataRows : List (List String)) : List Record :=
  let idx := steamResolve headerCells
  extractRowsSteam game idx.1 idx.2 dataRows

example : steamResolve ["Month", "Avg. Players", "Peak Players", "Gain"] = (some 1, some 2)
    := by decide
example : steamResolve ["Month", "Players"] = (none, none) := by decide
example : steamResolve ["Month", "Gain", "Flags"] = (some 1, some 2) := by decide
example : steamResolve ["Month", "Avg Players", "Gain"] = (some 1, some 2) := by decide
example : steamResolve ["Month", "Gain", "Peak Players"] = (some 1, some 2) := by decide

/-! ## Helper lemmas -/

/-- Every record the ActivePlayer row loop emits has both values strictly
positive (the loop appends only under `avg_daily > 0 and peak > 0`). -/
theorem mem_extractRowsAP_pos (game : String) (a b : ℕ) :
    ∀ (rows : List (List String)) (r : Record),
      r ∈ extractRowsAP game a b rows → 0 < r.avg ∧ 0 < r.peak
  | [], r, hr => by simp [extractRowsAP] at hr
  | cols :: rest, r, hr => by
    simp only [extractRowsAP] at hr
    split at hr
    · split at hr
      · rename_i hpos
        rcases List.mem_cons.mp hr with h | h
        · subst h; exact hpos
        · exact mem_extractRowsAP_pos game a b rest r h
      · exact mem_extractRowsAP_pos game a b rest r hr
    · exact mem_extractRowsAP_pos game a b rest r hr

/-- Every record the Steam row loop emits has at least one value strictly
positive (the loop appends under `avg > 0 or peak > 0`). -/
theorem mem_extractRowsSteam_pos (game : String) (a? b? : Option ℕ) :
    ∀ (rows : List (List String)) (r : Record),
      r ∈ extractRowsSteam game a? b? rows → 0 < r.avg ∨ 0 < r.peak
  | [], r, hr => by simp [extractRowsSteam] at hr
  | cols :: rest, r, hr => by
    simp only [extractRowsSteam] at hr
    split at hr
    · split at hr
      · split at hr
        · rename_i hpos
          rcases List.mem_cons.mp hr with h | h
          · subst h; exact hpos
          · exact mem_extractRowsSteam_pos game a? b? rest r h
        · exact mem_extractRowsSteam_pos game a? b? rest r hr
      · exact mem_extractRowsSteam_pos game a? b? rest r hr
    · exact mem_extractRowsSteam_pos game a? b? rest r hr

/-- A header text containing `"peak"` satisfies the peak-keyword test. -/
theorem containsAny_peak_of_substr (h : String) (hp : substrS h "peak" = true) :
    containsAny h peakKeywords = true := by
  simp [containsAny, peakKeywords, hp]

/-- A header-loop step either keeps the average index or sets it to the
current position. -/
theorem resolveStep_fst (st : Option ℕ × Option ℕ) (i : ℕ) (h : String) :
    (resolveStep st i h).1 = st.1 ∨ (resolveStep st i h).1 = some i := by
  unfold resolveStep
  split_ifs <;> simp

/-- A header-loop step either keeps the peak index or sets it to the
current position. -/
theorem resolveStep_snd (st : Option ℕ × Option ℕ) (i : ℕ) (h : String) :
    (resolveStep st i h).2 = st.2 ∨ (resolveStep st i h).2 = some i := by
  unfold resolveStep
  split_ifs <;> simp

/-- On a cell matching a peak keyword the step takes the first branch. -/
theorem resolveStep_peak (st : Option ℕ × Option ℕ) (i : ℕ) (h : String)
    (hp : containsAny h peakKeywords = true) : resolveStep st i h = (st.1, some i) := by
  simp [resolveStep, hp]

/-- If position `j` holds a peak-keyword cell, the header loop never
leaves the average index at `j`. -/
theorem resolveLoop_avg_ne (j : ℕ) :
    ∀ (cells : List String) (i0 : ℕ) (st : Option ℕ × Option ℕ),
      st.1 ≠ some j →
      (∀ k, k < cells.length → i0 + k = j →
        containsAny (cells.getD k "") peakKeywords = true) →
      (resolveLoop st i0 cells).1 ≠ some j
  | [], _, st, hst, _ => hst
  | h :: rest, i0, st, hst, hcells => by
    rw [resolveLoop]
    refine resolveLoop_avg_ne j rest (i0 + 1) _ ?_ ?_
    · by_cases hij : i0 = j
      · have hpk : containsAny h peakKeywords = true := by
          simpa using hcells 0 (by simp) (by omega)
        rw [resolveStep_peak st i0 h hpk]
        exact hst
      · rcases resolveStep_fst st i0 h with he | he
        · rw [he]; exact hst
        · rw [he]
          intro hc
          exact hij (Option.some.inj hc)
    · intro k hk hkj
      have hlen : k + 1 < (h :: rest).length := by
        simp only [List.length_cons]
        omega
      simpa using hcells (k + 1) hlen (by omega)

/-- Once any cell matches a peak keyword the header loop ends with the
peak index set. -/
theorem resolveLoop_peak_isSome :
    ∀ (cells : List String) (i0 : ℕ) (st : Option ℕ × Option ℕ),
      (st.2 ≠ none ∨
        ∃ k, k < cells.length ∧ containsAny (cells.getD k "") peakKeywords = true) →
      (resolveLoop st i0 cells).2 ≠ none
  | [], _, st, hyp => by
    rcases hyp with h | ⟨k, hk, _⟩
    · exact h
    · simp at hk
  | h :: rest, i0, st, hyp => by
    rw [resolveLoop]
    apply resolveLoop_peak_isSome rest (i0 + 1) _
    rcases hyp with hsome | ⟨k, hk, hpk⟩
    · left
      rcases resolveStep_snd st i0 h with he | he
      · rw [he]; exact hsome
      · rw [he]; simp
    · match k with
      | 0 =>
        left
        have hpk0 : containsAny h peakKeywords = true := by simpa using hpk
        rw [resolveStep_peak st i0 h hpk0]
        simp
      | k + 1 =>
        right
        refine ⟨k, ?_, by simpa using hpk⟩
        simp only [List.length_cons] at hk
        omega

/-- `getD` after mapping the strip-and-lower normalization. -/
theorem getD_map_lowerStrip : ∀ (l : List String) (i : ℕ), i < l.length →
    (l.map lowerStripS).getD i "" = lowerStripS (l.getD i "")
  | _ :: _, 0, _ => rfl
  | _ :: l, i + 1, h => getD_map_lowerStrip l i (by simp only [List.length_cons] at h; omega)
  | [], _, h => absurd h (by simp)

/-- After a single-metric override the finish step can only succeed with
equal indices. -/
theorem finishResolve_alias (st : Option ℕ × Option ℕ) (a b : ℕ)
    (h : finishResolve (aliasPeak st, true) = some (a, b)) : a = b := by
  rcases st with ⟨a?, b?⟩
  cases a? with
  | some i =>
    simp [aliasPeak, finishResolve] at h
    omega
  | none =>
    cases b? <;> simp [aliasPeak, finishResolve] at h

/-- On a single-metric layout the override chain always takes an alias
branch. -/
theorem applyOverrides_single (t : TableInfo) (st : Option ℕ × Option ℕ)
    (hsig : singleMetricSig t) : applyOverrides t st = (aliasPeak st, true) := by
  unfold applyOverrides
  split_ifs with h1 h2 h3 h4 h5 <;> try rfl
  all_goals (exfalso; rcases hsig with h | h | h | h <;> tauto)

/-- With at least 3 header cells, Steam column resolution is the keyword
scan followed by the two independent positional-default fallbacks. -/
theorem steamResolve_eq (cells : List String) (h3 : 3 ≤ cells.length) :
    steamResolve cells =
      ((if (steamKeyLoop (none, none) 0 cells).1 = none ∧ 2 ≤ cells.length then some 1
          else (steamKeyLoop (none, none) 0 cells).1),
        (if (steamKeyLoop (none, none) 0 cells).2 = none ∧ 3 ≤ cells.length then some 2
          else (steamKeyLoop (none, none) 0 cells).2)) := by
  simp only [steamResolve]
  rw [if_pos h3]

/-! ## Claim theorems -/

/-- Claim C1, counterexample: in the Steam Charts path a record whose
average value is 0 can be present in the output (appending requires only
`avg > 0 or peak > 0`), refuting the claim for the Steam extraction
path. -/
theorem c1_counterexample :
    (⟨"2024-01", "G", 0, 3000⟩ : Record) ∈
      extractRowsSteam "G" (some 1) (some 2) [["2024-01", "0", "3,000"]] := by decide

/-- Claim C1 (amended): the ActivePlayer table path appends a record only
when both normalized values are strictly positive, so a zero average or
zero peak never appears there; the Steam Charts path appends when at
least one of the two values is strictly positive. -/
theorem c1_row_validity (game : String) (a b : ℕ) (a? b? : Option ℕ)
    (rows rows2 : List (List String)) (r s : Record)
    (hr : r ∈ extractRowsAP game a b rows)
    (hs : s ∈ extractRowsSteam game a? b? rows2) :
    (0 < r.avg ∧ 0 < r.peak) ∧ (0 < s.avg ∨ 0 < s.peak) :=
  ⟨mem_extractRowsAP_pos game a b rows r hr,
    mem_extractRowsSteam_pos game a? b? rows2 s hs⟩

/-- Witness for C1 at a concrete table. -/
theorem c1_row_validity_witness :
    (0 < (⟨"2024-01", "G", 1500, 3000⟩ : Record).avg ∧
        0 < (⟨"2024-01", "G", 1500, 3000⟩ : Record).peak) ∧
      (0 < (⟨"2024-01", "G", 1500, 3000⟩ : Record).avg ∨
        0 < (⟨"2024-01", "G", 1500, 3000⟩ : Record).peak) :=
  c1_row_validity "G" 1 2 (some 1) (some 2) [["2024-01", "1,500", "3,000"]]
    [["2024-01", "1,500", "3,000"]] ⟨"2024-01", "G", 1500, 3000⟩
    ⟨"2024-01", "G", 1500, 3000⟩ (by decide) (by decide)

/-- Claim C2, counterexample: the two extraction paths' normalizers
disagree on the suffixed input `"2.5K"`. -/
theorem c2_counterexample :
    parse_number_with_commas_ap "2.5K" ≠ parse_number_with_commas_steam "2.5K" := by decide

/-- Claim C2 (amended): each path defines its own normalizer and the two
do not agree on every input: they coincide on plain comma-grouped
numerals, but the table path expands magnitude suffixes and accepts
leading signs while the Steam path zeroes signed input and fails suffixed
input to 0. -/
theorem c2_two_normalizers :
    parse_number_with_commas_ap "1,234" = parse_number_with_commas_steam "1,234" ∧
    parse_number_with_commas_ap "2.5K" = 2500 ∧
    parse_number_with_commas_steam "2.5K" = 0 ∧
    parse_number_with_commas_ap "+15.3" = mkRat 153 10 ∧
    parse_number_with_commas_steam "+15.3" = 0 := by decide

/-- Claim C3, counterexample: no single normalizer satisfies the claimed
table of values: the ActivePlayer one does not zero `"+15.3"` and the
Steam one does not expand `"2.5K"`. -/
theorem c3_counterexample :
    parse_number_with_commas_ap "+15.3" ≠ 0 ∧
      parse_number_with_commas_steam "2.5K" ≠ 2500 := by decide

/-- Claim C3 (amended): the ActivePlayer normalizer maps `"1,234"` to
1234, `"2.5K"` to 2500, `"1.2M"` to 1200000, `""` and `"abc"` to 0, but
`"+15.3"` to 15.3 (a leading sign is not treated as a delta there); the
Steam normalizer maps `"1,234"` to 1234, `"+15.3"`, `""` and `"abc"` to
0, and also `"2.5K"` and `"1.2M"` to 0 (no magnitude-suffix handling). -/
theorem c3_normalizer_values :
    parse_number_with_commas_ap "1,234" = 1234 ∧
    parse_number_with_commas_ap "2.5K" = 2500 ∧
    parse_number_with_commas_ap "1.2M" = 1200000 ∧
    parse_number_with_commas_ap "+15.3" = mkRat 153 10 ∧
    parse_number_with_commas_ap "" = 0 ∧
    parse_number_with_commas_ap "abc" = 0 ∧
    parse_number_with_commas_steam "1,234" = 1234 ∧
    parse_number_with_commas_steam "+15.3" = 0 ∧
    parse_number_with_commas_steam "" = 0 ∧
    parse_number_with_commas_steam "abc" = 0 ∧
    parse_number_with_commas_steam "2.5K" = 0 ∧
    parse_number_with_commas_steam "1.2M" = 0 := by decide

/-- Claim C4: a header cell whose lower-cased text contains both
`"players"` and `"peak"` is never assigned to the average index, and the
peak index is resolved, because the peak-keyword set is checked first for
each header. -/
theorem c4_peak_priority (ths : List String) (i : ℕ)
    (hi : i < ths.length)
    (hpl : substrS (lowerStripS (ths.getD i "")) "players" = true)
    (hpk : substrS (lowerStripS (ths.getD i "")) "peak" = true) :
    (resolveHeader ths).1 ≠ some i ∧ (resolveHeader ths).2 ≠ none := by
  have hkey : containsAny (lowerStripS (ths.getD i "")) peakKeywords = true :=
    containsAny_peak_of_substr _ hpk
  have hmap : (ths.map lowerStripS).getD i "" = lowerStripS (ths.getD i "") :=
    getD_map_lowerStrip ths i hi
  unfold resolveHeader
  constructor
  · apply resolveLoop_avg_ne i (ths.map lowerStripS) 0 (none, none) (by simp)
    intro k hk hkj
    have hk_eq : k = i := by omega
    subst hk_eq
    rw [hmap]
    exact hkey
  · apply resolveLoop_peak_isSome (ths.map lowerStripS) 0 (none, none)
    right
    refine ⟨i, by simpa using hi, ?_⟩
    rw [hmap]
    exact hkey

/-- Witness for C4 at a concrete header sequence. -/
theorem c4_peak_priority_witness :
    (resolveHeader ["Month", "Avg Players", "Peak Players"]).1 ≠ some 2 ∧
      (resolveHeader ["Month", "Avg Players", "Peak Players"]).2 ≠ none :=
  c4_peak_priority ["Month", "Avg Players", "Peak Players"] 2 (by decide) (by decide)
    (by decide)

/-- Claim C5: under any of the four single-metric layout signatures,
whenever column resolution succeeds the two resolved indices are equal
(the single metric column is aliased to both roles). -/
theorem c5_single_metric_alias (t : TableInfo) (ths : List String) (a b : ℕ)
    (hsig : singleMetricSig t) (hres : resolveFor t ths = some (a, b)) : a = b := by
  unfold resolveFor at hres
  rw [applyOverrides_single t _ hsig] at hres
  exact finishResolve_alias _ a b hres

/-- Witness for C5 at a concrete single-metric table. -/
theorem c5_single_metric_alias_witness : (1 : ℕ) = 1 :=
  c5_single_metric_alias ⟨none, ["asdrm-monthly-stats-table"]⟩
    ["Month", "Estimated Players"] 1 1
    (by unfold singleMetricSig; decide) (by decide)

/-- Claim C6: a first page with a matching, resolvable table but no
pagination control makes the loop consume exactly one page and return
that page's valid records; a page whose control has no next-page
affordance terminates the loop there, returning the accumulated records
plus that page's valid records. -/
theorem c6_pagination_termination (game : String) (t : TableInfo) (ths : List String)
    (rows : List (List String)) (rest : List Fetched) (acc : List Record)
    (pageNum : ℕ) (links : List Link) (a b : ℕ)
    (hres : resolveFor t ths = some (a, b)) :
    scrapeLoop game (Fetched.ok ⟨some (t, some ths, rows), none⟩ :: rest) 1 []
        = (extractRowsAP game a b rows, 1) ∧
      (hasNext links pageNum = false →
        scrapeLoop game (Fetched.ok ⟨some (t, some ths, rows), some links⟩ :: rest)
            pageNum acc
          = (acc ++ extractRowsAP game a b rows, 1)) := by
  constructor
  · simp [scrapeLoop, hres]
  · intro hn
    simp [scrapeLoop, hres, hn]

/-- Witness for C6 at a concrete single-page target. -/
theorem c6_pagination_termination_witness :
    scrapeLoop "G"
        [Fetched.ok ⟨some (⟨some "table_2", []⟩,
          some ["Month", "Average Daily Players", "Peak Players"],
          [["Jan 2024", "1,500", "3,000"]]), none⟩] 1 []
        = (extractRowsAP "G" 1 2 [["Jan 2024", "1,500", "3,000"]], 1) ∧
      scrapeLoop "G"
        [Fetched.ok ⟨some (⟨some "table_2", []⟩,
          some ["Month", "Average Daily Players", "Peak Players"],
          [["Jan 2024", "1,500", "3,000"]]), some []⟩] 7 []
        = ([] ++ extractRowsAP "G" 1 2 [["Jan 2024", "1,500", "3,000"]], 1) :=
  ⟨(c6_pagination_termination "G" ⟨some "table_2", []⟩
      ["Month", "Average Daily Players", "Peak Players"]
      [["Jan 2024", "1,500", "3,000"]] [] [] 7 [] 1 2 (by decide)).1,
    (c6_pagination_termination "G" ⟨some "table_2", []⟩
      ["Month", "Average Daily Players", "Peak Players"]
      [["Jan 2024", "1,500", "3,000"]] [] [] 7 [] 1 2 (by decide)).2 (by decide)⟩

/-- Claim C7: a permanently failing endpoint under the default
`max_retries = 3` and `base_delay = 2.0` causes exactly 3 attempts, the
delay slept before each retry is `base_delay * 2^attempt + jitter`, the
two delays are non-decreasing for any jitter draws in `[0, 1]`, and the
final attempt's error is surfaced (re-raised) to the caller. -/
theorem c7_retry_bound {E R : Type} (fetch : ℕ → Except E R) (errs : ℕ → E) (j : ℕ → ℚ)
    (hf : ∀ i, fetch i = Except.error (errs i))
    (hj : ∀ i, 0 ≤ j i ∧ j i ≤ 1) :
    make_request_with_retry fetch 3 2 j
        = (ReqOutcome.raised (errs 2), [2 * 2 ^ 0 + j 0, 2 * 2 ^ 1 + j 1], 3) ∧
      2 * 2 ^ 0 + j 0 ≤ 2 * 2 ^ 1 + j 1 := by
  constructor
  · simp [make_request_with_retry, retryAux, hf 0, hf 1, hf 2]
  · have e0 : (2 : ℚ) * 2 ^ 0 = 2 := by norm_num
    have e1 : (2 : ℚ) * 2 ^ 1 = 4 := by norm_num
    rw [e0, e1]
    linarith [(hj 0).2, (hj 1).1]

/-- Witness for C7 with zero jitter. -/
theorem c7_retry_bound_witness :
    make_request_with_retry (fun _ => (Except.error 0 : Except ℕ Unit)) 3 2 (fun _ => 0)
        = (ReqOutcome.raised 0, [2 * 2 ^ 0 + 0, 2 * 2 ^ 1 + 0], 3) ∧
      (2 * 2 ^ 0 + 0 : ℚ) ≤ 2 * 2 ^ 1 + 0 :=
  c7_retry_bound (fun _ => Except.error 0) (fun _ => 0) (fun _ => 0)
    (fun _ => rfl) (fun _ => ⟨le_refl 0, by norm_num⟩)

/-- The pagination loop only ever appends to its accumulator: its result
is the incoming accumulator followed by the newly collected records. -/
theorem scrapeLoop_acc (game : String) :
    ∀ (fs : List Fetched) (p : ℕ) (acc : List Record),
      (scrapeLoop game fs p acc).1 = acc ++ (scrapeLoop game fs p []).1
  | [], _, acc => by simp [scrapeLoop]
  | Fetched.err :: _, _, acc => by simp [scrapeLoop]
  | Fetched.ok pg :: rest, p, acc => by
    rcases pg with ⟨tbl?, pag?⟩
    rcases tbl? with _ | ⟨tinfo, hdr?, rows⟩
    · simp [scrapeLoop]
    · rcases hdr? with _ | ths
      · simp [scrapeLoop]
      · rcases hcol : resolveFor tinfo ths with _ | ⟨a, b⟩
        · simp [scrapeLoop, hcol]
        · rcases pag? with _ | links
          · simp [scrapeLoop, hcol]
          · by_cases hn : hasNext links p = true
            · have ih1 := scrapeLoop_acc game rest (p + 1)
                (acc ++ extractRowsAP game a b rows)
              have ih2 := scrapeLoop_acc game rest (p + 1)
                ([] ++ extractRowsAP game a b rows)
              simp only [scrapeLoop, hcol, hn, if_true]
              rw [ih1, ih2]
              simp [List.append_assoc]
            · simp [scrapeLoop, hcol, hn]

/-- The per-source fold visits every target and concatenates whatever
each target produced. -/
theorem scrape_games_foldl (env : String → List Fetched) :
    ∀ (targets : List (String × String)) (acc0 : List Record),
      targets.foldl (fun all t =>
          let gd := scrape_activeplayer t.1 (env t.2)
          if gd.isEmpty then all else all ++ gd) acc0
        = acc0 ++ (targets.map (fun t => scrape_activeplayer t.1 (env t.2))).flatten
  | [], acc0 => by simp
  | t :: ts, acc0 => by
    simp only [List.foldl_cons, List.map_cons, List.flatten_cons]
    rw [scrape_games_foldl env ts]
    by_cases h : (scrape_activeplayer t.1 (env t.2)).isEmpty
    · have hnil : scrape_activeplayer t.1 (env t.2) = [] := by simpa using h
      simp [h, hnil]
    · simp [h, List.append_assoc]

/-- Claim C8: every error case of the loop body returns the records
accumulated so far (a fetch error on any page keeps all prior pages'
records), the loop only ever extends its accumulator, and the
orchestrator visits every target, aggregating all per-target results. -/
theorem c8_error_containment (game : String) (p : ℕ) (acc : List Record)
    (rest fs : List Fetched) (targets : List (String × String))
    (env : String → List Fetched) :
    scrapeLoop game (Fetched.err :: rest) p acc = (acc, 1) ∧
      (scrapeLoop game fs p acc).1 = acc ++ (scrapeLoop game fs p []).1 ∧
      scrape_activeplayer_games targets env
        = (targets.map (fun t => scrape_activeplayer t.1 (env t.2))).flatten := by
  refine ⟨rfl, scrapeLoop_acc game fs p acc, ?_⟩
  unfold scrape_activeplayer_games
  rw [scrape_games_foldl env targets []]
  simp

/-- A page with a recognized `table_2`, a resolvable header, and a
pagination link labelled Next: the loop always continues past it. -/
def fullPage : Page :=
  ⟨some (⟨some "table_2", []⟩,
      some ["Month", "Average Daily Players", "Peak Players"], []),
    some [⟨"Next", ""⟩]⟩

/-- On a supply of `n` such pages the loop consumes all `n` of them. -/
theorem scrapeLoop_fullPage_count (game : String) :
    ∀ (n p : ℕ) (acc : List Record),
      (scrapeLoop game (List.replicate n (Fetched.ok fullPage)) p acc).2 = n
  | 0, _, acc => by simp [scrapeLoop]
  | n + 1, p, acc => by
    have hres : resolveFor ⟨some "table_2", []⟩
        ["Month", "Average Daily Players", "Peak Players"] = some (1, 2) := by decide
    have hnext : hasNext [⟨"Next", ""⟩] p = true := by
      have hsub : substrS "Next" "Next" = true := by decide
      simp [hasNext, hsub]
    simp only [List.replicate_succ, scrapeLoop, fullPage, hres, hnext, if_true]
    simp only [Nat.add_left_inj]
    exact scrapeLoop_fullPage_count game n (p + 1) _

/-- Claim C9: the pagination loop carries no defensive maximum page
count — for every candidate bound `B`, a supply of `B + 1` pages each
holding a matching table and a next-page affordance makes the loop
consume more than `B` pages. -/
theorem c9_no_page_bound : ∀ B : ℕ,
    B < (scrapeLoop "g" (List.replicate (B + 1) (Fetched.ok fullPage)) 1 []).2 := by
  intro B
  rw [scrapeLoop_fullPage_count "g" (B + 1) 1 []]
  omega

/-- Claim C10, counterexample: with exactly 2 header cells the whole
keyword-scan-and-defaults block is skipped (`if len(header_cells) >= 3`),
so an unresolved average index does not default to column 1. -/
theorem c10_counterexample :
    steamResolve ["month", "players"] = (none, none) ∧
      (steamResolve ["month", "players"]).1 ≠ some 1 := by decide

/-- Claim C10 (amended): positional defaults apply only when the header
row has at least 3 cells; then, independently of each other, an average
index unresolved by the keyword scan defaults to column 1 and an
unresolved peak index defaults to column 2, and row extraction proceeds
with the resolved indices (with both defaults when both were
unresolved). -/
theorem c10_positional_defaults (cells : List String) (game : String)
    (rows : List (List String)) (h3 : 3 ≤ cells.length) :
    ((steamKeyLoop (none, none) 0 cells).1 = none → (steamResolve cells).1 = some 1) ∧
      ((steamKeyLoop (none, none) 0 cells).2 = none → (steamResolve cells).2 = some 2) ∧
      ((steamKeyLoop (none, none) 0 cells).1 = none →
        (steamKeyLoop (none, none) 0 cells).2 = none →
        steamExtract game cells rows = extractRowsSteam game (some 1) (some 2) rows) := by
  have he := steamResolve_eq cells h3
  have h2 : 2 ≤ cells.length := by omega
  refine ⟨?_, ?_, ?_⟩
  · intro ha
    rw [he]
    simp [ha, h2]
  · intro hb
    rw [he]
    simp [hb, h3]
  · intro ha hb
    unfold steamExtract
    rw [he]
    simp [ha, hb, h2, h3]

/-- Witness for C10 at a concrete header sequence without keyword
matches, with both default antecedents holding. -/
theorem c10_positional_defaults_witness :
    ((steamKeyLoop (none, none) 0 ["Month", "Gain", "Flags"]).1 = none →
        (steamResolve ["Month", "Gain", "Flags"]).1 = some 1) ∧
      ((steamKeyLoop (none, none) 0 ["Month", "Gain", "Flags"]).2 = none →
        (steamResolve ["Month", "Gain", "Flags"]).2 = some 2) ∧
      ((steamKeyLoop (none, none) 0 ["Month", "Gain", "Flags"]).1 = none →
        (steamKeyLoop (none, none) 0 ["Month", "Gain", "Flags"]).2 = none →
        steamExtract "G" ["Month", "Gain", "Flags"] [["Jan 2024", "10", "20"]]
          = extractRowsSteam "G" (some 1) (some 2) [["Jan 2024", "10", "20"]]) :=
  c10_positional_defaults ["Month", "Gain", "Flags"] "G" [["Jan 2024", "10", "20"]]
    (by decide)

end GamesScraper
